import Mathlib

set_option maxHeartbeats 1000000
set_option autoImplicit false

set_option allowUnsafeReducibility true in
attribute [semireducible] Rat.add Rat.mul Rat.sub Rat.inv

instance {ε α : Type} [DecidableEq ε] [DecidableEq α] : DecidableEq (Except ε α)
  | .ok x, .ok y =>
    if h : x = y then .isTrue (h ▸ rfl) else .isFalse (fun hc => h (by cases hc; rfl))
  | .ok _, .error _ => .isFalse (fun hc => by cases hc)
  | .error _, .ok _ => .isFalse (fun hc => by cases hc)
  | .error x, .error y =>
    if h : x = y then .isTrue (h ▸ rfl) else .isFalse (fun hc => h (by cases hc; rfl))

/-!
Shallow embedding of `src/data/python/hdf5_insights.py` (EstateWise HDF5
market-insight archive builder/reader), together with theorems settling the
frozen claims about it.

Python floats are modelled exactly: a float is NaN, a signed infinity, or a
finite value carried as an exact rational.  Python exceptions are modelled with
`Except`.  Heterogeneous record fields are modelled by the inductive `Val`.
-/

/-- Model of a Python float: NaN, a signed infinity, or a finite value. -/
inductive PF
  | nan
  | inf (pos : Bool)
  | fin (q : ℚ)
deriving DecidableEq, Repr

namespace PF

/-- math.isnan -/
def isNan : PF → Bool
  | .nan => true
  | _ => false

/-- math.isinf -/
def isInf : PF → Bool
  | .inf _ => true
  | _ => false

/-- IEEE-style addition on the float model. -/
def add : PF → PF → PF
  | .nan, _ => .nan
  | _, .nan => .nan
  | .inf p, .inf q => if p = q then .inf p else .nan
  | .inf p, .fin _ => .inf p
  | .fin _, .inf p => .inf p
  | .fin a, .fin b => .fin (a + b)

def neg : PF → PF
  | .nan => .nan
  | .inf p => .inf (!p)
  | .fin a => .fin (-a)

def sub (a b : PF) : PF := a.add b.neg

/-- IEEE-style multiplication on the float model. -/
def mul : PF → PF → PF
  | .nan, _ => .nan
  | _, .nan => .nan
  | .inf p, .inf q => .inf (p == q)
  | .inf p, .fin b => if b = 0 then .nan else .inf (p == decide (0 < b))
  | .fin a, .inf q => if a = 0 then .nan else .inf (q == decide (0 < a))
  | .fin a, .fin b => .fin (a * b)

/-- IEEE-style division on the float model.  Division of a finite value or an
infinity by zero would raise ZeroDivisionError in Python; every use in the
program guards the divisor away from zero, so those cases are given the junk
value NaN here. -/
def div : PF → PF → PF
  | .nan, _ => .nan
  | _, .nan => .nan
  | .inf _, .inf _ => .nan
  | .inf p, .fin b => if b = 0 then .nan else .inf (p == decide (0 < b))
  | .fin _, .inf _ => .fin 0
  | .fin a, .fin b => if b = 0 then .nan else .fin (a / b)

/-- Division by a natural-number count (always positive where used). -/
def divNat (f : PF) (n : ℕ) : PF := f.div (.fin n)

/-- Ascending comparison used by numpy sorting: -inf < finite < +inf < nan. -/
def rank : PF → ℕ
  | .inf false => 0
  | .fin _ => 1
  | .inf true => 2
  | .nan => 3

def leB : PF → PF → Bool
  | .fin a, .fin b => a ≤ b
  | x, y => rank x ≤ rank y

/-- Python truthiness of a float: only (-)0.0 is falsy. -/
def truthy : PF → Bool
  | .fin q => q ≠ 0
  | _ => true

/-- Python `x <= 0` on a float (False for NaN). -/
def leZero : PF → Bool
  | .nan => false
  | .inf p => !p
  | .fin q => q ≤ 0

end PF

/-- Python exceptions relevant to the program. -/
inductive PyErr
  | typeError
  | valueError
  | overflowError
  | indexError
  | fileNotFoundError
deriving DecidableEq, Repr

/-- Model of a Python value stored in a property-record field. -/
inductive Val
  | none
  | int (n : ℤ)
  | float (f : PF)
  | str (s : String)
  | obj
deriving DecidableEq, Repr

/-- Python str.strip(): drop whitespace from both ends of a character list. -/
def stripChars (l : List Char) : List Char :=
  ((l.dropWhile Char.isWhitespace).reverse.dropWhile Char.isWhitespace).reverse

/-- Python str.strip() on a string. -/
def pyStrip (s : String) : String := String.mk (stripChars s.data)

/-- Python s.split("."). -/
def splitDot (l : List Char) : List (List Char) :=
  l.foldr
    (fun c acc =>
      if c = '.' then [] :: acc
      else
        match acc with
        | [] => [[c]]
        | g :: gs => (c :: g) :: gs)
    [[]]

/-- The numeric value of a nonempty all-digit character list (Python
str.isdigit combined with int()); Option.none otherwise. -/
def digitsVal? (l : List Char) : Option ℕ :=
  if !l.isEmpty && l.all Char.isDigit then
    some (l.foldl (fun n c => n * 10 + (c.toNat - 48)) 0)
  else Option.none

/-- Model of Python `float(s)` on an unsigned decimal literal body such as
"12", "12.", "12.5", ".5".  (Exponent forms are not needed anywhere in this
development; strings not of this shape are rejected, as Python rejects
non-numeric strings.) -/
def decBody (r : List Char) : Option ℚ :=
  match splitDot r with
  | [ip] => (digitsVal? ip).map (fun n => (n : ℚ))
  | [ip, fp] =>
    if ip.isEmpty && fp.isEmpty then Option.none
    else if (ip.isEmpty || (digitsVal? ip).isSome)
        && (fp.isEmpty || (digitsVal? fp).isSome) then
      some (((digitsVal? ip).getD 0 : ℚ) + ((digitsVal? fp).getD 0 : ℚ) / (10 : ℚ) ^ fp.length)
    else Option.none
  | _ => Option.none

/-- Model of Python `float()` applied to a string: strip whitespace, optional
sign, then "nan" / "inf" / "infinity" (case-insensitive) or a decimal
literal. -/
def pyFloatOfStr (s : String) : Option PF :=
  let t := stripChars s.data
  let neg := t.head? = some '-'
  let r := if t.head? = some '-' || t.head? = some '+' then t.drop 1 else t
  let low := r.map Char.toLower
  if low = ['n', 'a', 'n'] then some .nan
  else if low = ['i', 'n', 'f'] || low = ['i', 'n', 'f', 'i', 'n', 'i', 't', 'y'] then
    some (.inf (!neg))
  else (decBody r).map (fun q => .fin (if neg then -q else q))

/-- Model of the Python builtin `float(value)`: TypeError on None and
non-numeric objects, ValueError on unparseable strings. -/
def pyFloat : Val → Except PyErr PF
  | .none => .error .typeError
  | .int n => .ok (.fin n)
  | .float f => .ok f
  | .str s =>
    match pyFloatOfStr s with
    | some f => .ok f
    | Option.none => .error .valueError
  | .obj => .error .typeError

/-- Model of the Python builtin `int()` applied to a float: truncates toward
zero; raises ValueError on NaN and OverflowError on infinities. -/
def pyIntOfFloat : PF → Except PyErr ℤ
  | .nan => .error .valueError
  | .inf _ => .error .overflowError
  | .fin q => .ok (if 0 ≤ q then q.floor else q.ceil)

/-- Python `round()` on a float: banker's rounding (half to even);
raises ValueError on NaN and OverflowError on infinities. -/
def pyRound : PF → Except PyErr ℤ
  | .nan => .error .valueError
  | .inf _ => .error .overflowError
  | .fin q =>
    let fl := q.floor
    let fr := q - (fl : ℚ)
    .ok (if fr < 1 / 2 then fl
         else if 1 / 2 < fr then fl + 1
         else if fl % 2 = 0 then fl else fl + 1)

/-- `_safe_float` (hdf5_insights.py, lines 26-35).  Total: `float()` raises
only TypeError and ValueError, both of which are caught. -/
def safeFloat (value : Val) : PF :=
  match value with
  | .none => .nan
  | v =>
    match pyFloat v with
    | .ok num => if num.isNan then .nan else num
    | .error _ => .nan

/-- `_safe_int` (hdf5_insights.py, lines 38-44).  `int(float(value))` may
raise OverflowError on an infinite value; the except-clause catches only
TypeError and ValueError, so OverflowError escapes. -/
def safeInt (value : Val) : Except PyErr ℤ :=
  match value with
  | .none => .ok 0
  | v =>
    match pyFloat v with
    | .error e => if e = .typeError || e = .valueError then .ok 0 else .error e
    | .ok f =>
      match pyIntOfFloat f with
      | .error e => if e = .typeError || e = .valueError then .ok 0 else .error e
      | .ok n => .ok n

/-- `_safe_str` (hdf5_insights.py, lines 47-50). -/
def safeStr (value : Val) (fallback : String := "Unknown") : String :=
  match value with
  | .str s => if pyStrip s ≠ "" then pyStrip s else fallback
  | _ => fallback

/-- A property record: a loosely-typed mapping; `dict.get` of an absent key
yields None, which is the default of every field. -/
structure PropertyRecord where
  zpid : Val := .none
  price : Val := .none
  bedrooms : Val := .none
  bathrooms : Val := .none
  livingArea : Val := .none
  latitude : Val := .none
  longitude : Val := .none
  pricePerSqft : Val := .none
  city : Val := .none
  state : Val := .none
  homeType : Val := .none
deriving DecidableEq, Repr

/-- Update-or-append on an insertion-ordered association list: models
mutation of a Python (default)dict entry, which preserves insertion order. -/
def updAssoc {β : Type} (k : String) (f : β → β) (d : β) :
    List (String × β) → List (String × β)
  | [] => [(k, f d)]
  | (k', v) :: rest =>
    if k' = k then (k', f v) :: rest else (k', v) :: updAssoc k f d rest

/-- Python dict lookup on the association-list model. -/
def dictGet {β : Type} (k : String) : List (String × β) → Option β
  | [] => Option.none
  | (k', v) :: rest => if k' = k then some v else dictGet k rest

/-- Loop `for p in ps: totals[key p] <- upd p` over a defaultdict with
default `d`, starting from the empty dict. -/
def groupFold {α β : Type} (key : α → String) (upd : α → β → β) (d : β)
    (ps : List α) : List (String × β) :=
  ps.foldl (fun acc p => updAssoc (key p) (upd p) d acc) []

/-- Per-city running totals (`_compute_city_stats` accumulator). -/
structure CityTotals where
  count : ℕ
  total_price : PF
  total_sqft : PF
deriving DecidableEq, Repr

/-- One loop iteration of `_compute_city_stats` (lines 84-92). -/
def cityStep (p : PropertyRecord) (t : CityTotals) : CityTotals :=
  let price := safeFloat p.price
  let sqft := safeFloat p.livingArea
  { count := t.count + 1
    total_price := if price.isNan then t.total_price else t.total_price.add price
    total_sqft := if sqft.isNan then t.total_sqft else t.total_sqft.add sqft }

def cityInit : CityTotals := ⟨0, .fin 0, .fin 0⟩

def cityTotals (ps : List PropertyRecord) : List (String × CityTotals) :=
  groupFold (fun p => safeStr p.city) cityStep cityInit ps

structure CityStatsOut where
  cities : List String
  counts : List ℕ
  avg_price : List PF
  avg_sqft : List PF
deriving DecidableEq, Repr

def cityAvgPriceOf (t : CityTotals) : PF :=
  if t.count ≠ 0 then t.total_price.divNat t.count else .nan

def cityAvgSqftOf (t : CityTotals) : PF :=
  if t.count ≠ 0 then
    (if t.total_sqft.truthy then t.total_sqft.divNat t.count else .nan)
  else .nan

/-- `_compute_city_stats` (lines 80-104). -/
def computeCityStats (ps : List PropertyRecord) : CityStatsOut :=
  let totals := cityTotals ps
  ⟨totals.map Prod.fst, totals.map (fun x => x.2.count),
   totals.map (fun x => cityAvgPriceOf x.2), totals.map (fun x => cityAvgSqftOf x.2)⟩

/-- Per-home-type running totals (`_compute_home_type_mix` accumulator). -/
structure HomeTotals where
  count : ℕ
  total_price : PF
deriving DecidableEq, Repr

def homeStep (p : PropertyRecord) (t : HomeTotals) : HomeTotals :=
  let price := safeFloat p.price
  { count := t.count + 1
    total_price := if price.isNan then t.total_price else t.total_price.add price }

def homeInit : HomeTotals := ⟨0, .fin 0⟩

def homeTotals (ps : List PropertyRecord) : List (String × HomeTotals) :=
  groupFold (fun p => safeStr p.homeType) homeStep homeInit ps

structure HomeMixOut where
  types : List String
  counts : List ℕ
  avg_price : List PF
deriving DecidableEq, Repr

def homeAvgPriceOf (t : HomeTotals) : PF :=
  if t.count ≠ 0 then t.total_price.divNat t.count else .nan

/-- `_compute_home_type_mix` (lines 107-124). -/
def computeHomeTypeMix (ps : List PropertyRecord) : HomeMixOut :=
  let totals := homeTotals ps
  ⟨totals.map Prod.fst, totals.map (fun x => x.2.count),
   totals.map (fun x => homeAvgPriceOf x.2)⟩

/-- Band label of one record (lines 130-135); `round()` may raise on a
non-None bedrooms value that coerces to NaN or infinity. -/
def bandLabel (p : PropertyRecord) : Except PyErr String :=
  match p.bedrooms with
  | .none => .ok "Unknown"
  | b =>
    match pyRound (safeFloat b) with
    | .error e => .error e
    | .ok v => .ok (if 5 ≤ v then toString v ++ "+" else toString v)

/-- The counting loop of `_compute_bedroom_bands` (lines 129-136), threading
the defaultdict accumulator; stops at the first raised exception. -/
def bandCountsFrom (acc : List (String × ℕ)) :
    List PropertyRecord → Except PyErr (List (String × ℕ))
  | [] => .ok acc
  | p :: ps =>
    match bandLabel p with
    | .error e => .error e
    | .ok l => bandCountsFrom (updAssoc l (· + 1) 0 acc) ps

/-- Sort key of line 138: `int(x[:-1])` for "+"-suffixed labels, `int(x)` for
digit strings, else 99.  (Generated labels always parse, so the fallback 99
on the "+" branch is unreachable.) -/
def bandSortKey (x : String) : ℤ :=
  if x.data.getLast? = some '+' then
    ((digitsVal? x.data.dropLast).map Int.ofNat).getD 99
  else
    match digitsVal? x.data with
    | some n => (n : ℤ)
    | Option.none => 99

/-- Stable ascending insertion by `bandSortKey` (models `list.sort(key=...)`,
which is a stable ascending sort). -/
def insertBand (a : String) : List String → List String
  | [] => [a]
  | b :: bs => if bandSortKey b ≤ bandSortKey a then b :: insertBand a bs else a :: b :: bs

def sortBands (l : List String) : List String :=
  l.foldl (fun acc a => insertBand a acc) []

structure BandsOut where
  bands : List String
  counts : List ℕ
deriving DecidableEq, Repr

/-- `_compute_bedroom_bands` (lines 127-139).  `bands[label]` in the final
comprehension cannot miss (the labels are exactly the keys), so the 0 default
of `dictGet ... |>.getD 0` is unreachable. -/
def computeBedroomBands (ps : List PropertyRecord) : Except PyErr BandsOut :=
  match bandCountsFrom [] ps with
  | .error e => .error e
  | .ok bandMap =>
    let labels := sortBands (bandMap.map Prod.fst)
    .ok ⟨labels, labels.map (fun l => (dictGet l bandMap).getD 0)⟩

/-- Stable ascending insertion on floats (numpy sort order). -/
def insertPF (a : PF) : List PF → List PF
  | [] => [a]
  | b :: bs => if PF.leB b a then b :: insertPF a bs else a :: b :: bs

def sortPF (l : List PF) : List PF :=
  l.foldl (fun acc a => insertPF a acc) []

/-- `np.percentile(xs, p)` with the default "linear" interpolation method:
virtual index `p/100 * (n-1)` into the ascending sort, linearly interpolating
between the two neighbouring order statistics. -/
def pfPercentile (xs : List PF) (p : ℚ) : PF :=
  let s := sortPF xs
  let n := s.length
  let idx : ℚ := p / 100 * ((n : ℚ) - 1)
  let lo := idx.floor
  let a := s.getD lo.toNat .nan
  let b := s.getD idx.ceil.toNat .nan
  a.add ((b.sub a).mul (.fin (idx - (lo : ℚ))))

def pfSum (l : List PF) : PF := l.foldl PF.add (.fin 0)

/-- `np.mean`: sum divided by size. -/
def pfMean (l : List PF) : PF := (pfSum l).divNat l.length

def validPrices (ps : List PropertyRecord) : List PF :=
  (ps.map (fun p => safeFloat p.price)).filter (fun f => !f.isNan)

/-- The `price_quartiles` computation of `_write_aggregations`
(lines 161-167). -/
def computePriceQuartiles (ps : List PropertyRecord) : List PF :=
  let valid := validPrices ps
  if valid.length ≠ 0 then ([0, 25, 50, 75, 100] : List ℚ).map (pfPercentile valid)
  else List.replicate 5 .nan

/-- The `price_per_sqft_mean` computation of `_write_aggregations`
(lines 169-180). -/
def computePricePerSqftMean (ps : List PropertyRecord) : List PF :=
  let valid := (ps.map (fun p => safeFloat p.pricePerSqft)).filter (fun f => !f.isNan)
  if valid.length ≠ 0 then [pfMean valid] else [.nan]

/-- A scalar HDF5 attribute value: Python int or float. -/
inductive AttrVal
  | aInt (n : ℤ)
  | aFloat (f : PF)
deriving DecidableEq, Repr

def validOf (l : List PF) : List PF := l.filter (fun f => !f.isNan)

/-- The `price_per_sqft` ratio list of `_write_global_metrics`
(lines 196-200): skip pairs with NaN price, NaN area, or area ≤ 0. -/
def ppsRatios : List (PF × PF) → List PF
  | [] => []
  | (price, area) :: rest =>
    if price.isNan || area.isNan || area.leZero then ppsRatios rest
    else price.div area :: ppsRatios rest

/-- `_write_global_metrics` (lines 183-201): the five scalar attributes, in
creation order. -/
def computeGlobalMetrics (ps : List PropertyRecord) : List (String × AttrVal) :=
  let prices := ps.map (fun p => safeFloat p.price)
  let living := ps.map (fun p => safeFloat p.livingArea)
  let validP := validOf prices
  let validL := validOf living
  let pps := ppsRatios (prices.zip living)
  [("total_properties", .aInt (ps.length : ℤ)),
   ("average_price", .aFloat (if validP.length ≠ 0 then pfMean validP else .nan)),
   ("median_price", .aFloat (if validP.length ≠ 0 then pfPercentile validP 50 else .nan)),
   ("average_living_area", .aFloat (if validL.length ≠ 0 then pfMean validL else .nan)),
   ("average_price_per_sqft", .aFloat (if pps.length ≠ 0 then pfMean pps else .nan))]

/-- The on-disk archive: the 11 `properties` columns, the 12 `aggregations`
datasets, and the `global_metrics` attributes, as written by `build_archive`. -/
structure Archive where
  zpid : List ℤ
  price : List PF
  bedrooms : List PF
  bathrooms : List PF
  livingArea : List PF
  latitude : List PF
  longitude : List PF
  pricePerSqft : List PF
  city : List String
  state : List String
  homeType : List String
  city_names : List String
  city_counts : List ℕ
  city_avg_price : List PF
  city_avg_sqft : List PF
  home_types : List String
  home_type_counts : List ℕ
  home_type_avg_price : List PF
  bedroom_bands : List String
  bedroom_counts : List ℕ
  price_quartiles : List PF
  price_per_sqft_mean : List PF
  global_metrics : List (String × AttrVal)
deriving DecidableEq, Repr

/-- A Python list comprehension over a fallible element computation: stops at
the first raised exception. -/
def mapExcept {α β : Type} (f : α → Except PyErr β) : List α → Except PyErr (List β)
  | [] => .ok []
  | a :: as =>
    match f a with
    | .error e => .error e
    | .ok b =>
      match mapExcept f as with
      | .error e => .error e
      | .ok bs => .ok (b :: bs)

/-- `build_archive` (lines 204-212): writes the `properties` group (whose
`zpid` column is the first fallible computation), then the aggregations, then
the global metrics.  Returns the resulting archive contents. -/
def buildArchive (ps : List PropertyRecord) : Except PyErr Archive :=
  match mapExcept (fun p => safeInt p.zpid) ps with
  | .error e => .error e
  | .ok zpids =>
    match computeBedroomBands ps with
    | .error e => .error e
    | .ok bands =>
      let cs := computeCityStats ps
      let hm := computeHomeTypeMix ps
      .ok { zpid := zpids
            price := ps.map (fun p => safeFloat p.price)
            bedrooms := ps.map (fun p => safeFloat p.bedrooms)
            bathrooms := ps.map (fun p => safeFloat p.bathrooms)
            livingArea := ps.map (fun p => safeFloat p.livingArea)
            latitude := ps.map (fun p => safeFloat p.latitude)
            longitude := ps.map (fun p => safeFloat p.longitude)
            pricePerSqft := ps.map (fun p => safeFloat p.pricePerSqft)
            city := ps.map (fun p => safeStr p.city)
            state := ps.map (fun p => safeStr p.state)
            homeType := ps.map (fun p => safeStr p.homeType)
            city_names := cs.cities
            city_counts := cs.counts
            city_avg_price := cs.avg_price
            city_avg_sqft := cs.avg_sqft
            home_types := hm.types
            home_type_counts := hm.counts
            home_type_avg_price := hm.avg_price
            bedroom_bands := bands.bands
            bedroom_counts := bands.counts
            price_quartiles := computePriceQuartiles ps
            price_per_sqft_mean := computePricePerSqftMean ps
            global_metrics := computeGlobalMetrics ps }

/-- A JSON number-or-null as emitted on the read path: null, a Python int, or
a Python float. -/
inductive JNum
  | jnull
  | jint (n : ℤ)
  | jfloat (f : PF)
deriving DecidableEq, Repr

/-- `_maybe` (lines 231-234) composed with `float(·)`: a NaN or infinite
float becomes null, any other float is kept as a float. -/
def pyMaybe (f : PF) : JNum :=
  if f.isNan || f.isInf then .jnull else .jfloat f

structure CityEntry where
  city : String
  properties : ℕ
  averagePrice : JNum
  averageLivingArea : JNum
deriving DecidableEq, Repr

structure HomeTypeEntry where
  homeType : String
  properties : ℕ
  averagePrice : JNum
deriving DecidableEq, Repr

structure BandEntry where
  band : String
  properties : ℕ
deriving DecidableEq, Repr

structure QuartilesOut where
  min : JNum
  q1 : JNum
  median : JNum
  q3 : JNum
  max : JNum
deriving DecidableEq, Repr

/-- The JSON-serializable summary returned by `read_archive`. -/
structure InsightsSummary where
  cityPriceSummary : List CityEntry
  homeTypeSummary : List HomeTypeEntry
  bedroomDistribution : List BandEntry
  priceQuartiles : QuartilesOut
  averagePricePerSqft : JNum
  marketTotals : List (String × JNum)
deriving DecidableEq, Repr

/-- Python `zip` over four lists (truncates to the shortest). -/
def zip4 {α β γ δ : Type} : List α → List β → List γ → List δ → List (α × β × γ × δ)
  | a :: as, b :: bs, c :: cs, d :: ds => (a, b, c, d) :: zip4 as bs cs ds
  | _, _, _, _ => []

/-- Python `zip` over three lists (truncates to the shortest). -/
def zip3L {α β γ : Type} : List α → List β → List γ → List (α × β × γ)
  | a :: as, b :: bs, c :: cs => (a, b, c) :: zip3L as bs cs
  | _, _, _ => []

/-- `float(value)` on an attribute value read back from the archive. -/
def attrFloat : AttrVal → PF
  | .aInt n => .fin n
  | .aFloat f => f

/-- The decoding part of `read_archive` (lines 241-304), applied to the
archive contents.  Indexing `price_per_sqft_mean[0]` (line 282) raises
IndexError on an empty dataset, and indexing `price_quartiles[0..4]`
(lines 296-300) raises IndexError when fewer than five quartiles exist. -/
def readSummary (a : Archive) : Except PyErr InsightsSummary :=
  let citySummary := (zip4 a.city_names a.city_counts a.city_avg_price a.city_avg_sqft).map
    (fun x => CityEntry.mk x.1 x.2.1 (pyMaybe x.2.2.1) (pyMaybe x.2.2.2))
  let homeMix := (zip3L a.home_types a.home_type_counts a.home_type_avg_price).map
    (fun x => HomeTypeEntry.mk x.1 x.2.1 (pyMaybe x.2.2))
  let bedroomMix := (a.bedroom_bands.zip a.bedroom_counts).map
    (fun x => BandEntry.mk x.1 x.2)
  match a.price_per_sqft_mean with
  | [] => .error .indexError
  | pps0 :: _ =>
    match a.price_quartiles.map pyMaybe with
    | q0 :: q1 :: q2 :: q3 :: q4 :: _ =>
      .ok { cityPriceSummary := citySummary
            homeTypeSummary := homeMix
            bedroomDistribution := bedroomMix
            priceQuartiles := ⟨q0, q1, q2, q3, q4⟩
            averagePricePerSqft := pyMaybe pps0
            marketTotals := a.global_metrics.map (fun kv => (kv.1, pyMaybe (attrFloat kv.2))) }
    | _ => .error .indexError

/-- `read_archive` (lines 237-304) against a modelled filesystem mapping
paths to archive contents: a missing path raises FileNotFoundError before
anything is opened. -/
def readArchive (fs : String → Option Archive) (path : String) :
    Except PyErr InsightsSummary :=
  match fs path with
  | Option.none => .error .fileNotFoundError
  | some a => readSummary a

/-- A float-or-null JSON value is acceptable when it is not a NaN and not an
infinity (null and int values are trivially acceptable). -/
def JNum.finiteOk : JNum → Bool
  | .jfloat f => !(f.isNan || f.isInf)
  | _ => true

/-- Every float appearing anywhere in the read-back summary is finite. -/
def summaryOk (s : InsightsSummary) : Bool :=
  s.cityPriceSummary.all (fun e => e.averagePrice.finiteOk && e.averageLivingArea.finiteOk) &&
  s.homeTypeSummary.all (fun e => e.averagePrice.finiteOk) &&
  (s.priceQuartiles.min.finiteOk && s.priceQuartiles.q1.finiteOk &&
   s.priceQuartiles.median.finiteOk && s.priceQuartiles.q3.finiteOk &&
   s.priceQuartiles.max.finiteOk) &&
  s.averagePricePerSqft.finiteOk &&
  s.marketTotals.all (fun kv => kv.2.finiteOk)

/-! ### Generic lemmas about insertion-ordered grouping -/

section GroupingLemmas

variable {α β : Type}

theorem dictGet_updAssoc_self (k : String) (f : β → β) (d : β)
    (l : List (String × β)) :
    dictGet k (updAssoc k f d l) = some (f ((dictGet k l).getD d)) := by
  induction l with
  | nil => simp [updAssoc, dictGet]
  | cons kv rest ih =>
    obtain ⟨k', v⟩ := kv
    by_cases h : k' = k <;> simp [updAssoc, dictGet, h, ih]

theorem dictGet_updAssoc_ne (k k' : String) (hne : k' ≠ k) (f : β → β) (d : β)
    (l : List (String × β)) :
    dictGet k' (updAssoc k f d l) = dictGet k' l := by
  induction l with
  | nil => simp [updAssoc, dictGet, Ne.symm hne]
  | cons kv rest ih =>
    obtain ⟨k'', v⟩ := kv
    by_cases h : k'' = k
    · subst h
      simp [updAssoc, dictGet, hne, Ne.symm hne]
    · by_cases h2 : k'' = k' <;> simp [updAssoc, dictGet, h, h2, hne, Ne.symm hne, ih]

theorem fst_updAssoc (k : String) (f : β → β) (d : β) (l : List (String × β)) :
    (updAssoc k f d l).map Prod.fst =
      if k ∈ l.map Prod.fst then l.map Prod.fst else l.map Prod.fst ++ [k] := by
  induction l with
  | nil => simp [updAssoc]
  | cons kv rest ih =>
    obtain ⟨k', v⟩ := kv
    by_cases h : k' = k
    · subst h
      simp [updAssoc]
    · simp only [updAssoc, if_neg h, List.map_cons, List.mem_cons, ih]
      by_cases hm : k ∈ rest.map Prod.fst
      · simp [hm, Ne.symm h]
      · simp [hm, Ne.symm h]

/-- The value stored at `k` after folding a grouped update over `ps`. -/
theorem dictGet_groupFoldAux (key : α → String) (upd : α → β → β) (d : β)
    (ps : List α) (acc : List (String × β)) (k : String) :
    dictGet k (ps.foldl (fun acc p => updAssoc (key p) (upd p) d acc) acc) =
      if (ps.filter (fun p => key p = k)).isEmpty then dictGet k acc
      else some ((ps.filter (fun p => key p = k)).foldl (fun b p => upd p b)
        ((dictGet k acc).getD d)) := by
  induction ps generalizing acc with
  | nil => simp
  | cons p ps ih =>
    by_cases hk : key p = k
    · rw [List.foldl_cons, ih, hk, dictGet_updAssoc_self]
      simp only [List.filter_cons, hk]
      by_cases he : (ps.filter (fun p => decide (key p = k))).isEmpty
      · simp [he, List.isEmpty_iff.1 he]
      · simp [he]
    · rw [List.foldl_cons, ih, dictGet_updAssoc_ne _ _ (fun h => hk h.symm)]
      simp [List.filter_cons, hk]

theorem mem_fst_groupFoldAux (key : α → String) (upd : α → β → β) (d : β)
    (ps : List α) (acc : List (String × β)) (k : String) :
    k ∈ (ps.foldl (fun acc p => updAssoc (key p) (upd p) d acc) acc).map Prod.fst ↔
      k ∈ acc.map Prod.fst ∨ k ∈ ps.map key := by
  induction ps generalizing acc with
  | nil => simp
  | cons p ps ih =>
    simp only [List.foldl_cons, ih, fst_updAssoc, List.map_cons, List.mem_cons]
    by_cases hm : key p ∈ acc.map Prod.fst
    · simp only [if_pos hm]
      constructor
      · rintro (h | h)
        · exact Or.inl h
        · exact Or.inr (Or.inr h)
      · rintro (h | h | h)
        · exact Or.inl h
        · exact Or.inl (by rw [h]; exact hm)
        · exact Or.inr h
    · simp only [if_neg hm, List.mem_append, List.mem_singleton]
      tauto

theorem nodup_fst_groupFoldAux (key : α → String) (upd : α → β → β) (d : β)
    (ps : List α) (acc : List (String × β)) (h : (acc.map Prod.fst).Nodup) :
    ((ps.foldl (fun acc p => updAssoc (key p) (upd p) d acc) acc).map Prod.fst).Nodup := by
  induction ps generalizing acc with
  | nil => exact h
  | cons p ps ih =>
    simp only [List.foldl_cons]
    apply ih
    rw [fst_updAssoc]
    by_cases hm : key p ∈ acc.map Prod.fst
    · simpa [hm] using h
    · rw [if_neg hm]
      refine List.Nodup.append h (List.nodup_singleton _) ?_
      intro x hx hc
      rw [List.mem_singleton] at hc
      exact hm (hc ▸ hx)

end GroupingLemmas

section AssocLemmas

variable {β : Type}

theorem dictGet_of_mem_nodup {l : List (String × β)} {k : String} {v : β}
    (h : (k, v) ∈ l) (hnd : (l.map Prod.fst).Nodup) : dictGet k l = some v := by
  induction l with
  | nil => cases h
  | cons kv rest ih =>
    obtain ⟨k', v'⟩ := kv
    rcases List.mem_cons.1 h with h1 | h1
    · obtain ⟨rfl, rfl⟩ := Prod.mk.injEq .. ▸ h1
      simp [dictGet]
    · have hne : k' ≠ k := by
        intro he
        subst he
        exact (List.nodup_cons.1 hnd).1
          (List.mem_map.2 ⟨(k', v), h1, rfl⟩)
      simp only [dictGet, if_neg hne]
      exact ih h1 (List.nodup_cons.1 hnd).2

/-- Sum of a numeric projection of the values of an association list. -/
def sumBy (g : β → ℕ) (l : List (String × β)) : ℕ := (l.map (fun x => g x.2)).sum

theorem sumBy_updAssoc (g : β → ℕ) (k : String) (f : β → β) (d : β)
    (l : List (String × β)) (hf : ∀ b, g (f b) = g b + 1) (hd : g d = 0) :
    sumBy g (updAssoc k f d l) = sumBy g l + 1 := by
  induction l with
  | nil => simp [updAssoc, sumBy, hf, hd]
  | cons kv rest ih =>
    obtain ⟨k', v⟩ := kv
    by_cases h : k' = k
    · simp only [updAssoc, if_pos h, sumBy, List.map_cons, List.sum_cons, hf]
      omega
    · simp only [updAssoc, if_neg h, sumBy, List.map_cons, List.sum_cons] at *
      omega

theorem sumBy_groupFoldAux {α : Type} (g : β → ℕ) (key : α → String)
    (upd : α → β → β) (d : β) (ps : List α) (acc : List (String × β))
    (hupd : ∀ p b, g (upd p b) = g b + 1) (hd : g d = 0) :
    sumBy g (ps.foldl (fun acc p => updAssoc (key p) (upd p) d acc) acc) =
      sumBy g acc + ps.length := by
  induction ps generalizing acc with
  | nil => simp
  | cons p ps ih =>
    rw [List.foldl_cons, ih, sumBy_updAssoc g _ _ _ _ (hupd p) hd]
    simp only [List.length_cons]
    omega

theorem sum_lookup_keys (l : List (String × ℕ))
    (hnd : (l.map Prod.fst).Nodup) :
    ((l.map Prod.fst).map (fun k => (dictGet k l).getD 0)).sum = sumBy id l := by
  induction l with
  | nil => rfl
  | cons kv rest ih =>
    obtain ⟨k, v⟩ := kv
    have hrest : (rest.map Prod.fst).map (fun k' => (dictGet k' ((k, v) :: rest)).getD 0) =
        (rest.map Prod.fst).map (fun k' => (dictGet k' rest).getD 0) := by
      apply List.map_congr_left
      intro k' hk'
      have hne : k ≠ k' := fun he => (List.nodup_cons.1 hnd).1 (he ▸ hk')
      simp [dictGet, hne]
    have hk : (dictGet k ((k, v) :: rest)).getD 0 = v := by simp [dictGet]
    simp only [List.map_cons, List.sum_cons]
    rw [hk, hrest, ih (List.nodup_cons.1 hnd).2]
    simp [sumBy]

end AssocLemmas

theorem insertBand_perm (a : String) (l : List String) :
    (insertBand a l).Perm (a :: l) := by
  induction l with
  | nil => exact List.Perm.refl _
  | cons b bs ih =>
    unfold insertBand
    by_cases h : bandSortKey b ≤ bandSortKey a
    · rw [if_pos h]
      exact (ih.cons b).trans (List.Perm.swap a b bs)
    · rw [if_neg h]

theorem foldl_insertBand_perm (l acc : List String) :
    (l.foldl (fun acc a => insertBand a acc) acc).Perm (acc ++ l) := by
  induction l generalizing acc with
  | nil => simp
  | cons a as ih =>
    rw [List.foldl_cons]
    have h1 := ih (insertBand a acc)
    have h2 : (insertBand a acc ++ as).Perm ((a :: acc) ++ as) :=
      (insertBand_perm a acc).append_right as
    have h3 : ((a :: acc) ++ as).Perm (acc ++ a :: as) := List.perm_middle.symm
    exact (h1.trans h2).trans h3

theorem sortBands_perm (l : List String) : (sortBands l).Perm l := by
  simpa [sortBands] using foldl_insertBand_perm l []

section GroupFoldCorollaries

variable {α β : Type}

theorem dictGet_groupFold (key : α → String) (upd : α → β → β) (d : β)
    (ps : List α) (k : String) :
    dictGet k (groupFold key upd d ps) =
      if (ps.filter (fun p => key p = k)).isEmpty then Option.none
      else some ((ps.filter (fun p => key p = k)).foldl (fun b p => upd p b) d) := by
  have h := dictGet_groupFoldAux key upd d ps [] k
  simpa [groupFold, dictGet] using h

theorem mem_fst_groupFold (key : α → String) (upd : α → β → β) (d : β)
    (ps : List α) (k : String) :
    k ∈ (groupFold key upd d ps).map Prod.fst ↔ k ∈ ps.map key := by
  have h := mem_fst_groupFoldAux key upd d ps [] k
  simpa [groupFold] using h

theorem nodup_fst_groupFold (key : α → String) (upd : α → β → β) (d : β)
    (ps : List α) :
    ((groupFold key upd d ps).map Prod.fst).Nodup :=
  nodup_fst_groupFoldAux key upd d ps [] (by simp)

theorem length_groupFold (key : α → String) (upd : α → β → β) (d : β)
    (ps : List α) :
    (groupFold key upd d ps).length = (ps.map key).dedup.length := by
  have hnd := nodup_fst_groupFold key upd d ps
  have hmem : ∀ k, k ∈ (groupFold key upd d ps).map Prod.fst ↔ k ∈ (ps.map key).dedup := by
    intro k
    rw [List.mem_dedup]
    exact mem_fst_groupFold key upd d ps k
  have hperm := (List.perm_ext_iff_of_nodup hnd (List.nodup_dedup _)).2 hmem
  calc (groupFold key upd d ps).length
      = ((groupFold key upd d ps).map Prod.fst).length := (List.length_map _ _).symm
    _ = (ps.map key).dedup.length := hperm.length_eq

theorem sumBy_groupFold (g : β → ℕ) (key : α → String) (upd : α → β → β) (d : β)
    (ps : List α) (hupd : ∀ p b, g (upd p b) = g b + 1) (hd : g d = 0) :
    sumBy g (groupFold key upd d ps) = ps.length := by
  have h := sumBy_groupFoldAux g key upd d ps [] hupd hd
  simpa [groupFold, sumBy] using h

end GroupFoldCorollaries

theorem mapExcept_ok_length {α β : Type} (f : α → Except PyErr β)
    (ps : List α) (bs : List β) (h : mapExcept f ps = .ok bs) :
    bs.length = ps.length := by
  induction ps generalizing bs with
  | nil =>
    simp only [mapExcept] at h
    cases h
    rfl
  | cons p ps ih =>
    simp only [mapExcept] at h
    cases hf : f p with
    | error e => rw [hf] at h; cases h
    | ok b =>
      rw [hf] at h
      cases hm : mapExcept f ps with
      | error e => rw [hm] at h; cases h
      | ok bs' =>
        rw [hm] at h
        cases h
        simp [ih bs' hm]

/-- The interleaved counting loop of `_compute_bedroom_bands` is the
label-by-label grouping of the list-comprehension of labels. -/
theorem bandCountsFrom_eq (ps : List PropertyRecord) (acc : List (String × ℕ)) :
    bandCountsFrom acc ps =
      (mapExcept bandLabel ps).map
        (fun ls => ls.foldl (fun acc l => updAssoc l (· + 1) 0 acc) acc) := by
  induction ps generalizing acc with
  | nil => rfl
  | cons p ps ih =>
    cases hl : bandLabel p with
    | error e => simp [bandCountsFrom, mapExcept, hl, Except.map]
    | ok l =>
      simp only [bandCountsFrom, mapExcept, hl]
      rw [ih]
      cases hm : mapExcept bandLabel ps with
      | error e => rfl
      | ok ls => rfl

/-- Accumulate the non-NaN floats of `l` onto `init` (the running-total
pattern of the aggregation loops: `if not math.isnan(x): total += x`). -/
def pfAccValid (init : PF) (l : List PF) : PF :=
  l.foldl (fun acc f => if f.isNan then acc else acc.add f) init

/-- The float sum of the valid (non-NaN) entries of `l`, starting from 0.0. -/
def pfValidSum (l : List PF) : PF := pfAccValid (.fin 0) l

theorem pfAccValid_all_nan (l : List PF) (init : PF)
    (h : ∀ f ∈ l, f.isNan = true) : pfAccValid init l = init := by
  induction l generalizing init with
  | nil => rfl
  | cons f l ih =>
    have hf := h f (List.mem_cons_self _ _)
    simp only [pfAccValid, List.foldl_cons, hf, if_pos]
    exact ih init (fun g hg => h g (List.mem_cons_of_mem _ hg))

theorem divNat_zero_of_pos (n : ℕ) (hn : n ≠ 0) : PF.divNat (.fin 0) n = .fin 0 := by
  simp only [PF.divNat, PF.div]
  rw [if_neg (by exact_mod_cast hn)]
  norm_num

theorem foldl_cityStep (grp : List PropertyRecord) (t : CityTotals) :
    grp.foldl (fun b p => cityStep p b) t =
      ⟨t.count + grp.length,
       pfAccValid t.total_price (grp.map (fun p => safeFloat p.price)),
       pfAccValid t.total_sqft (grp.map (fun p => safeFloat p.livingArea))⟩ := by
  induction grp generalizing t with
  | nil => simp [pfAccValid]
  | cons p grp ih =>
    rw [List.foldl_cons, ih]
    have hc : t.count + 1 + grp.length = t.count + (grp.length + 1) := by omega
    simp only [cityStep, pfAccValid, List.map_cons, List.foldl_cons, List.length_cons, hc]

theorem foldl_homeStep (grp : List PropertyRecord) (t : HomeTotals) :
    grp.foldl (fun b p => homeStep p b) t =
      ⟨t.count + grp.length,
       pfAccValid t.total_price (grp.map (fun p => safeFloat p.price))⟩ := by
  induction grp generalizing t with
  | nil => simp [pfAccValid]
  | cons p grp ih =>
    rw [List.foldl_cons, ih]
    have hc : t.count + 1 + grp.length = t.count + (grp.length + 1) := by omega
    simp only [homeStep, pfAccValid, List.map_cons, List.foldl_cons, List.length_cons, hc]

/-- Records of `ps` falling in the city group of `c`. -/
def cityGroup (ps : List PropertyRecord) (c : String) : List PropertyRecord :=
  ps.filter (fun p => safeStr p.city = c)

/-- Records of `ps` falling in the home-type group of `t`. -/
def homeGroup (ps : List PropertyRecord) (t : String) : List PropertyRecord :=
  ps.filter (fun p => safeStr p.homeType = t)

/-- C1 (amended): for every city group and home-type group, the emitted
`averagePrice` is the sum of the group's valid (non-NaN) price values divided
by the TOTAL record count of the group (valid-price records or not); in
particular a group none of whose records has a valid price reports the float
0.0, not a missing value. -/
theorem C1_theorem (ps : List PropertyRecord) :
    (∀ c a, (c, a) ∈ (computeCityStats ps).cities.zip (computeCityStats ps).avg_price →
      a = (pfValidSum ((cityGroup ps c).map (fun p => safeFloat p.price))).divNat
            (cityGroup ps c).length ∧
      (((cityGroup ps c).map (fun p => safeFloat p.price)).all PF.isNan = true →
        a = .fin 0)) ∧
    (∀ t a, (t, a) ∈ (computeHomeTypeMix ps).types.zip (computeHomeTypeMix ps).avg_price →
      a = (pfValidSum ((homeGroup ps t).map (fun p => safeFloat p.price))).divNat
            (homeGroup ps t).length ∧
      (((homeGroup ps t).map (fun p => safeFloat p.price)).all PF.isNan = true →
        a = .fin 0)) := by
  constructor
  · intro c a hmem
    have hzip : (computeCityStats ps).cities.zip (computeCityStats ps).avg_price =
        (cityTotals ps).map (fun x => (x.1, cityAvgPriceOf x.2)) := by
      simpa [computeCityStats] using
        List.zip_map' Prod.fst (fun x : String × CityTotals => cityAvgPriceOf x.2)
          (cityTotals ps)
    rw [hzip] at hmem
    obtain ⟨⟨k, i⟩, hx, hpair⟩ := List.mem_map.1 hmem
    have hk : k = c := congrArg Prod.fst hpair
    have ha : cityAvgPriceOf i = a := congrArg Prod.snd hpair
    subst hk
    subst ha
    have hget : dictGet k (cityTotals ps) = some i :=
      dictGet_of_mem_nodup hx
        (by simpa [cityTotals] using
          nodup_fst_groupFold (fun p => safeStr p.city) cityStep cityInit ps)
    have hgf := dictGet_groupFold (fun p => safeStr p.city) cityStep cityInit ps k
    rw [show groupFold (fun p => safeStr p.city) cityStep cityInit ps = cityTotals ps from rfl,
      hget] at hgf
    by_cases he : (ps.filter (fun p => safeStr p.city = k)).isEmpty
    · rw [if_pos he] at hgf
      cases hgf
    · rw [if_neg he] at hgf
      have hi : i = (ps.filter (fun p => safeStr p.city = k)).foldl
          (fun b p => cityStep p b) cityInit := by
        injection hgf
      have hfold := foldl_cityStep (ps.filter (fun p => safeStr p.city = k)) cityInit
      have hlen : (cityGroup ps k).length ≠ 0 := by
        simp only [cityGroup]
        intro h0
        exact he (by simpa [List.isEmpty_iff, List.length_eq_zero] using h0)
      have hi2 : i = ⟨(cityGroup ps k).length,
          pfValidSum ((cityGroup ps k).map (fun p => safeFloat p.price)),
          pfValidSum ((cityGroup ps k).map (fun p => safeFloat p.livingArea))⟩ := by
        rw [hi, hfold]
        simp [cityInit, cityGroup, pfValidSum]
      constructor
      · rw [hi2]
        simp [cityAvgPriceOf, hlen]
      · intro hall
        rw [hi2]
        simp only [cityAvgPriceOf, if_pos hlen]
        rw [pfValidSum, pfAccValid_all_nan _ _ (List.all_eq_true.1 hall)]
        exact divNat_zero_of_pos _ hlen
  · intro t a hmem
    have hzip : (computeHomeTypeMix ps).types.zip (computeHomeTypeMix ps).avg_price =
        (homeTotals ps).map (fun x => (x.1, homeAvgPriceOf x.2)) := by
      simpa [computeHomeTypeMix] using
        List.zip_map' Prod.fst (fun x : String × HomeTotals => homeAvgPriceOf x.2)
          (homeTotals ps)
    rw [hzip] at hmem
    obtain ⟨⟨k, i⟩, hx, hpair⟩ := List.mem_map.1 hmem
    have hk : k = t := congrArg Prod.fst hpair
    have ha : homeAvgPriceOf i = a := congrArg Prod.snd hpair
    subst hk
    subst ha
    have hget : dictGet k (homeTotals ps) = some i :=
      dictGet_of_mem_nodup hx
        (by simpa [homeTotals] using
          nodup_fst_groupFold (fun p => safeStr p.homeType) homeStep homeInit ps)
    have hgf := dictGet_groupFold (fun p => safeStr p.homeType) homeStep homeInit ps k
    rw [show groupFold (fun p => safeStr p.homeType) homeStep homeInit ps = homeTotals ps from rfl,
      hget] at hgf
    by_cases he : (ps.filter (fun p => safeStr p.homeType = k)).isEmpty
    · rw [if_pos he] at hgf
      cases hgf
    · rw [if_neg he] at hgf
      have hi : i = (ps.filter (fun p => safeStr p.homeType = k)).foldl
          (fun b p => homeStep p b) homeInit := by
        injection hgf
      have hfold := foldl_homeStep (ps.filter (fun p => safeStr p.homeType = k)) homeInit
      have hlen : (homeGroup ps k).length ≠ 0 := by
        simp only [homeGroup]
        intro h0
        exact he (by simpa [List.isEmpty_iff, List.length_eq_zero] using h0)
      have hi2 : i = ⟨(homeGroup ps k).length,
          pfValidSum ((homeGroup ps k).map (fun p => safeFloat p.price))⟩ := by
        rw [hi, hfold]
        simp [homeInit, homeGroup, pfValidSum]
      constructor
      · rw [hi2]
        simp [homeAvgPriceOf, hlen]
      · intro hall
        rw [hi2]
        simp only [homeAvgPriceOf, if_pos hlen]
        rw [pfValidSum, pfAccValid_all_nan _ _ (List.all_eq_true.1 hall)]
        exact divNat_zero_of_pos _ hlen

/-- One record whose only price is missing: its city group has zero valid
price values. -/
def C1exA : List PropertyRecord := [{ city := .str "A", price := .none }]

/-- Two records in one city group, one valid price (100) and one missing. -/
def C1exB : List PropertyRecord :=
  [{ city := .str "A", price := .int 100 }, { city := .str "A", price := .none }]

/-- C1 (counterexample): a city group with zero valid price values is
reported with averagePrice 0.0 — which survives the null-translation of the
read path — not with a missing value; and a group holding one valid price 100
and one missing price is reported with averagePrice 50, although the
arithmetic mean of its valid price values is 100. -/
theorem C1_counterexample :
    (computeCityStats C1exA).avg_price = [.fin 0] ∧
    pyMaybe (.fin 0) ≠ .jnull ∧
    (computeCityStats C1exB).avg_price = [.fin 50] ∧
    pfMean (validPrices C1exB) = .fin 100 ∧
    PF.fin 50 ≠ PF.fin 100 := by decide

/-- Witness for `C1_theorem` at the concrete input `C1exB`. -/
theorem C1_witness :
    PF.fin 50 =
      (pfValidSum ((cityGroup C1exB "A").map (fun p => safeFloat p.price))).divNat
        (cityGroup C1exB "A").length ∧
    (((cityGroup C1exB "A").map (fun p => safeFloat p.price)).all PF.isNan = true →
      PF.fin 50 = .fin 0) :=
  (C1_theorem C1exB).1 "A" (PF.fin 50) (by decide)

/-- The bedroom-band ordering example of the specification:
bedrooms `[2, 0, 5, 7, None, 3]`. -/
def C2ex : List PropertyRecord :=
  [{ bedrooms := .int 2 }, { bedrooms := .int 0 }, { bedrooms := .int 5 },
   { bedrooms := .int 7 }, { bedrooms := .none }, { bedrooms := .int 3 }]

/-- C2 (amended): a record whose coerced bedrooms value rounds to an integer
n ≥ 5 gets the band label `f"{n}+"` (so 5 → "5+" but 7 → "7+"), and the
example input yields bands 0, 2, 3, 5+, 7+, Unknown with counts
1, 1, 1, 1, 1, 1. -/
theorem C2_theorem :
    (∀ (p : PropertyRecord) (n : ℤ), p.bedrooms ≠ .none →
        pyRound (safeFloat p.bedrooms) = .ok n → 5 ≤ n →
        bandLabel p = .ok (toString n ++ "+")) ∧
    computeBedroomBands C2ex =
      .ok ⟨["0", "2", "3", "5+", "7+", "Unknown"], [1, 1, 1, 1, 1, 1]⟩ := by
  constructor
  · intro p n hne hro hge
    cases hb : p.bedrooms
    case none => exact absurd hb hne
    all_goals
      rw [hb] at hro
      simp only [bandLabel, hb]
      rw [hro]
      simp [hge]
  · decide

/-- Witness for `C2_theorem` at a record with 7 bedrooms. -/
theorem C2_witness :
    bandLabel { bedrooms := Val.int 7 } = .ok (toString (7 : ℤ) ++ "+") :=
  C2_theorem.1 { bedrooms := Val.int 7 } 7 (by decide) (by decide) (by decide)

/-- C2 (counterexample): a record with 7 bedrooms is labelled "7+", not "5+",
and the example input therefore does not produce the claimed five bands
0, 2, 3, 5+, Unknown with counts 1, 1, 1, 2, 1. -/
theorem C2_counterexample :
    bandLabel { bedrooms := Val.int 7 } = .ok "7+" ∧ "7+" ≠ "5+" ∧
    computeBedroomBands C2ex ≠
      .ok ⟨["0", "2", "3", "5+", "Unknown"], [1, 1, 1, 2, 1]⟩ := by decide

/-- C3 (the code is not total): `_safe_int` applied to an infinite float
raises OverflowError (only TypeError and ValueError are caught), and
`_compute_bedroom_bands` raises ValueError from `round()` on a record whose
non-None bedrooms value coerces to NaN. -/
theorem C3_theorem :
    safeInt (.float (.inf true)) = .error .overflowError ∧
    computeBedroomBands [{ bedrooms := .str "x" }] = .error .valueError := by decide

/-- C4 (amended): `global_metrics` carries exactly FIVE scalar attributes —
total_properties (an integer equal to the record count), average_price,
median_price, average_living_area, and additionally average_price_per_sqft. -/
theorem C4_theorem (ps : List PropertyRecord) :
    (computeGlobalMetrics ps).map Prod.fst =
      ["total_properties", "average_price", "median_price",
       "average_living_area", "average_price_per_sqft"] ∧
    dictGet "total_properties" (computeGlobalMetrics ps) =
      some (.aInt (ps.length : ℤ)) := by
  simp [computeGlobalMetrics, dictGet]

/-- C4 (counterexample): the metrics group has five attributes, among them
`average_price_per_sqft`, which is not one of the four claimed. -/
theorem C4_counterexample :
    ((computeGlobalMetrics []).map Prod.fst).length = 5 ∧
    "average_price_per_sqft" ∈ (computeGlobalMetrics []).map Prod.fst := by decide

/-- The price list of the quartile example: `[100, 200, 300, 400]`. -/
def C8ex : List PropertyRecord :=
  [{ price := .int 100 }, { price := .int 200 },
   { price := .int 300 }, { price := .int 400 }]

/-- C8: the 5-point quantile summary of `[100, 200, 300, 400]` under linear
interpolation is min 100, q1 175, median 250, q3 325, max 400. -/
theorem C8_theorem :
    computePriceQuartiles C8ex =
      [.fin 100, .fin 175, .fin 250, .fin 325, .fin 400] := by decide

theorem city_counts_sum (ps : List PropertyRecord) :
    (computeCityStats ps).counts.sum = ps.length := by
  have h := sumBy_groupFold CityTotals.count (fun p => safeStr p.city) cityStep cityInit ps
    (fun p b => rfl) rfl
  simpa [computeCityStats, cityTotals, sumBy] using h

theorem home_counts_sum (ps : List PropertyRecord) :
    (computeHomeTypeMix ps).counts.sum = ps.length := by
  have h := sumBy_groupFold HomeTotals.count (fun p => safeStr p.homeType) homeStep homeInit ps
    (fun p b => rfl) rfl
  simpa [computeHomeTypeMix, homeTotals, sumBy] using h

theorem bedroom_counts_sum (ps : List PropertyRecord) (out : BandsOut)
    (h : computeBedroomBands ps = .ok out) : out.counts.sum = ps.length := by
  unfold computeBedroomBands at h
  cases hbc : bandCountsFrom [] ps with
  | error e =>
    rw [hbc] at h
    cases h
  | ok bandMap =>
    rw [hbc] at h
    injection h with h
    subst h
    rw [bandCountsFrom_eq] at hbc
    cases hml : mapExcept bandLabel ps with
    | error e =>
      rw [hml] at hbc
      simp only [Except.map] at hbc
      cases hbc
    | ok ls =>
      rw [hml] at hbc
      simp only [Except.map] at hbc
      injection hbc with hbc
      have hbm : bandMap = groupFold (fun l : String => l) (fun _ c => c + 1) 0 ls := by
        rw [← hbc]
        rfl
      have hnd : (bandMap.map Prod.fst).Nodup := by
        rw [hbm]
        exact nodup_fst_groupFold _ _ _ _
      have hsum : sumBy id bandMap = ls.length := by
        rw [hbm]
        exact sumBy_groupFold id _ _ _ ls (fun p b => rfl) rfl
      have hperm : (sortBands (bandMap.map Prod.fst)).Perm (bandMap.map Prod.fst) :=
        sortBands_perm _
      have hmap := hperm.map (fun l => (dictGet l bandMap).getD 0)
      calc ((sortBands (bandMap.map Prod.fst)).map
              (fun l => (dictGet l bandMap).getD 0)).sum
          = ((bandMap.map Prod.fst).map (fun l => (dictGet l bandMap).getD 0)).sum :=
            hmap.sum_eq
        _ = sumBy id bandMap := sum_lookup_keys bandMap hnd
        _ = ls.length := hsum
        _ = ps.length := mapExcept_ok_length _ _ _ hml

/-- C5: when a build succeeds, every `properties` column has exactly one row
per input record, and the counts of each grouped table (city, home type,
bedroom band) sum to the input record count. -/
theorem C5_theorem (ps : List PropertyRecord) (a : Archive)
    (h : buildArchive ps = .ok a) :
    a.zpid.length = ps.length ∧ a.price.length = ps.length ∧
    a.bedrooms.length = ps.length ∧ a.bathrooms.length = ps.length ∧
    a.livingArea.length = ps.length ∧ a.latitude.length = ps.length ∧
    a.longitude.length = ps.length ∧ a.pricePerSqft.length = ps.length ∧
    a.city.length = ps.length ∧ a.state.length = ps.length ∧
    a.homeType.length = ps.length ∧
    a.city_counts.sum = ps.length ∧ a.home_type_counts.sum = ps.length ∧
    a.bedroom_counts.sum = ps.length := by
  unfold buildArchive at h
  cases hz : mapExcept (fun p => safeInt p.zpid) ps with
  | error e =>
    rw [hz] at h
    cases h
  | ok zpids =>
    rw [hz] at h
    cases hbb : computeBedroomBands ps with
    | error e =>
      rw [hbb] at h
      cases h
    | ok bands =>
      rw [hbb] at h
      injection h with h
      subst h
      exact ⟨mapExcept_ok_length _ _ _ hz,
        List.length_map .., List.length_map .., List.length_map ..,
        List.length_map .., List.length_map .., List.length_map ..,
        List.length_map .., List.length_map .., List.length_map ..,
        List.length_map ..,
        city_counts_sum ps, home_counts_sum ps, bedroom_counts_sum ps bands hbb⟩

/-- A three-record input exercising both groups, missing values, and the
"+"-band. -/
def W3 : List PropertyRecord :=
  [{ zpid := .int 1, price := .int 100, bedrooms := .int 3, livingArea := .int 1000,
     pricePerSqft := .float (.fin 10), city := .str "Chapel Hill", homeType := .str "House" },
   { zpid := .int 2, price := .int 300, bedrooms := .int 7, city := .str "Durham" },
   { zpid := .int 3, city := .str "Chapel Hill" }]

/-- The archive contents produced by building `W3`. -/
def W3Archive : Archive :=
  { zpid := [1, 2, 3],
    price := [.fin 100, .fin 300, .nan],
    bedrooms := [.fin 3, .fin 7, .nan],
    bathrooms := [.nan, .nan, .nan],
    livingArea := [.fin 1000, .nan, .nan],
    latitude := [.nan, .nan, .nan],
    longitude := [.nan, .nan, .nan],
    pricePerSqft := [.fin 10, .nan, .nan],
    city := ["Chapel Hill", "Durham", "Chapel Hill"],
    state := ["Unknown", "Unknown", "Unknown"],
    homeType := ["House", "Unknown", "Unknown"],
    city_names := ["Chapel Hill", "Durham"],
    city_counts := [2, 1],
    city_avg_price := [.fin 50, .fin 300],
    city_avg_sqft := [.fin 500, .nan],
    home_types := ["House", "Unknown"],
    home_type_counts := [1, 2],
    home_type_avg_price := [.fin 100, .fin 150],
    bedroom_bands := ["3", "7+", "Unknown"],
    bedroom_counts := [1, 1, 1],
    price_quartiles := [.fin 100, .fin 150, .fin 200, .fin 250, .fin 300],
    price_per_sqft_mean := [.fin 10],
    global_metrics :=
      [("total_properties", .aInt 3),
       ("average_price", .aFloat (.fin 200)),
       ("median_price", .aFloat (.fin 200)),
       ("average_living_area", .aFloat (.fin 1000)),
       ("average_price_per_sqft", .aFloat (.fin (1 / 10)))] }

/-- The summary read back from `W3Archive`. -/
def W3Summary : InsightsSummary :=
  { cityPriceSummary :=
      [⟨"Chapel Hill", 2, .jfloat (.fin 50), .jfloat (.fin 500)⟩,
       ⟨"Durham", 1, .jfloat (.fin 300), .jnull⟩],
    homeTypeSummary :=
      [⟨"House", 1, .jfloat (.fin 100)⟩, ⟨"Unknown", 2, .jfloat (.fin 150)⟩],
    bedroomDistribution := [⟨"3", 1⟩, ⟨"7+", 1⟩, ⟨"Unknown", 1⟩],
    priceQuartiles :=
      ⟨.jfloat (.fin 100), .jfloat (.fin 150), .jfloat (.fin 200),
       .jfloat (.fin 250), .jfloat (.fin 300)⟩,
    averagePricePerSqft := .jfloat (.fin 10),
    marketTotals :=
      [("total_properties", .jfloat (.fin 3)),
       ("average_price", .jfloat (.fin 200)),
       ("median_price", .jfloat (.fin 200)),
       ("average_living_area", .jfloat (.fin 1000)),
       ("average_price_per_sqft", .jfloat (.fin (1 / 10)))] }

/-- Witness for `C5_theorem` at the three-record input `W3`. -/
theorem C5_witness :
    buildArchive W3 = .ok W3Archive ∧ W3Archive.city_counts.sum = W3.length ∧
    W3Archive.home_type_counts.sum = W3.length ∧
    W3Archive.bedroom_counts.sum = W3.length ∧
    W3Archive.zpid.length = W3.length := by
  obtain ⟨h1, h2, h3, h4, h5, h6, h7, h8, h9, h10, h11, h12, h13, h14⟩ :=
    C5_theorem W3 W3Archive (by decide)
  exact ⟨by decide, h12, h13, h14, h1⟩

theorem pyMaybe_finiteOk (f : PF) : (pyMaybe f).finiteOk = true := by
  by_cases h : (f.isNan || f.isInf) = true
  · simp [pyMaybe, h, JNum.finiteOk]
  · simp [pyMaybe, h, JNum.finiteOk]

theorem quartiles_shape (ps : List PropertyRecord) :
    ∃ q0 q1 q2 q3 q4, computePriceQuartiles ps = [q0, q1, q2, q3, q4] := by
  by_cases h : (validPrices ps).length ≠ 0
  · exact ⟨pfPercentile (validPrices ps) 0, pfPercentile (validPrices ps) 25,
      pfPercentile (validPrices ps) 50, pfPercentile (validPrices ps) 75,
      pfPercentile (validPrices ps) 100, by simp [computePriceQuartiles, h]⟩
  · exact ⟨.nan, .nan, .nan, .nan, .nan, by simp [computePriceQuartiles, h]⟩

theorem pps_shape (ps : List PropertyRecord) :
    ∃ x, computePricePerSqftMean ps = [x] := by
  by_cases h : ((ps.map (fun p => safeFloat p.pricePerSqft)).filter (fun f => !f.isNan)).length ≠ 0
  · exact ⟨pfMean ((ps.map (fun p => safeFloat p.pricePerSqft)).filter (fun f => !f.isNan)),
      by simp [computePricePerSqftMean, h]⟩
  · exact ⟨.nan, by simp [computePricePerSqftMean, h]⟩

/-- The aggregation fields of a successfully built archive. -/
theorem buildArchive_ok_fields (ps : List PropertyRecord) (a : Archive)
    (h : buildArchive ps = .ok a) :
    a.city_names = (computeCityStats ps).cities ∧
    a.city_counts = (computeCityStats ps).counts ∧
    a.city_avg_price = (computeCityStats ps).avg_price ∧
    a.city_avg_sqft = (computeCityStats ps).avg_sqft ∧
    a.home_types = (computeHomeTypeMix ps).types ∧
    a.home_type_counts = (computeHomeTypeMix ps).counts ∧
    a.home_type_avg_price = (computeHomeTypeMix ps).avg_price ∧
    computeBedroomBands ps = .ok ⟨a.bedroom_bands, a.bedroom_counts⟩ ∧
    a.price_quartiles = computePriceQuartiles ps ∧
    a.price_per_sqft_mean = computePricePerSqftMean ps ∧
    a.global_metrics = computeGlobalMetrics ps := by
  unfold buildArchive at h
  cases hz : mapExcept (fun p => safeInt p.zpid) ps with
  | error e =>
    rw [hz] at h
    cases h
  | ok zpids =>
    rw [hz] at h
    cases hbb : computeBedroomBands ps with
    | error e =>
      rw [hbb] at h
      cases h
    | ok bands =>
      rw [hbb] at h
      injection h with h
      subst h
      exact ⟨rfl, rfl, rfl, rfl, rfl, rfl, rfl, rfl, rfl, rfl, rfl⟩

/-- Decomposition of a successful read: every float-bearing output field is
built through the `_maybe(float(.))` translation. -/
theorem readSummary_ok_parts (a : Archive) (s : InsightsSummary)
    (h : readSummary a = .ok s) :
    s.cityPriceSummary = (zip4 a.city_names a.city_counts a.city_avg_price a.city_avg_sqft).map
      (fun x => CityEntry.mk x.1 x.2.1 (pyMaybe x.2.2.1) (pyMaybe x.2.2.2)) ∧
    s.homeTypeSummary = (zip3L a.home_types a.home_type_counts a.home_type_avg_price).map
      (fun x => HomeTypeEntry.mk x.1 x.2.1 (pyMaybe x.2.2)) ∧
    (∃ v, s.priceQuartiles.min = pyMaybe v) ∧
    (∃ v, s.priceQuartiles.q1 = pyMaybe v) ∧
    (∃ v, s.priceQuartiles.median = pyMaybe v) ∧
    (∃ v, s.priceQuartiles.q3 = pyMaybe v) ∧
    (∃ v, s.priceQuartiles.max = pyMaybe v) ∧
    (∃ v, s.averagePricePerSqft = pyMaybe v) ∧
    s.marketTotals = a.global_metrics.map (fun kv => (kv.1, pyMaybe (attrFloat kv.2))) := by
  unfold readSummary at h
  cases hp : a.price_per_sqft_mean with
  | nil =>
    rw [hp] at h
    cases h
  | cons pps0 prest =>
    rw [hp] at h
    cases hm : a.price_quartiles.map pyMaybe with
    | nil =>
      rw [hm] at h
      cases h
    | cons q0 m1 =>
      cases m1 with
      | nil =>
        rw [hm] at h
        cases h
      | cons q1 m2 =>
        cases m2 with
        | nil =>
          rw [hm] at h
          cases h
        | cons q2 m3 =>
          cases m3 with
          | nil =>
            rw [hm] at h
            cases h
          | cons q3 m4 =>
            cases m4 with
            | nil =>
              rw [hm] at h
              cases h
            | cons q4 m5 =>
              rw [hm] at h
              injection h with h
              subst h
              refine ⟨rfl, rfl, ?_, ?_, ?_, ?_, ?_, ⟨pps0, rfl⟩, rfl⟩
              · have h0 : q0 ∈ a.price_quartiles.map pyMaybe := by
                  rw [hm]
                  simp
                obtain ⟨v, _, hpy⟩ := List.mem_map.1 h0
                exact ⟨v, hpy.symm⟩
              · have h0 : q1 ∈ a.price_quartiles.map pyMaybe := by
                  rw [hm]
                  simp
                obtain ⟨v, _, hpy⟩ := List.mem_map.1 h0
                exact ⟨v, hpy.symm⟩
              · have h0 : q2 ∈ a.price_quartiles.map pyMaybe := by
                  rw [hm]
                  simp
                obtain ⟨v, _, hpy⟩ := List.mem_map.1 h0
                exact ⟨v, hpy.symm⟩
              · have h0 : q3 ∈ a.price_quartiles.map pyMaybe := by
                  rw [hm]
                  simp
                obtain ⟨v, _, hpy⟩ := List.mem_map.1 h0
                exact ⟨v, hpy.symm⟩
              · have h0 : q4 ∈ a.price_quartiles.map pyMaybe := by
                  rw [hm]
                  simp
                obtain ⟨v, _, hpy⟩ := List.mem_map.1 h0
                exact ⟨v, hpy.symm⟩

theorem readSummary_ok_summaryOk (a : Archive) (s : InsightsSummary)
    (h : readSummary a = .ok s) : summaryOk s = true := by
  obtain ⟨hcity, hhome, hq0, hq1, hq2, hq3, hq4, hpps, hmt⟩ := readSummary_ok_parts a s h
  obtain ⟨v0, hv0⟩ := hq0
  obtain ⟨v1, hv1⟩ := hq1
  obtain ⟨v2, hv2⟩ := hq2
  obtain ⟨v3, hv3⟩ := hq3
  obtain ⟨v4, hv4⟩ := hq4
  obtain ⟨vp, hvp⟩ := hpps
  unfold summaryOk
  simp only [Bool.and_eq_true]
  refine ⟨⟨⟨⟨?_, ?_⟩, ⟨⟨⟨⟨?_, ?_⟩, ?_⟩, ?_⟩, ?_⟩⟩, ?_⟩, ?_⟩
  · rw [hcity, List.all_eq_true]
    intro e he
    obtain ⟨x, -, rfl⟩ := List.mem_map.1 he
    simp [pyMaybe_finiteOk]
  · rw [hhome, List.all_eq_true]
    intro e he
    obtain ⟨x, -, rfl⟩ := List.mem_map.1 he
    simp [pyMaybe_finiteOk]
  · rw [hv0]
    exact pyMaybe_finiteOk v0
  · rw [hv1]
    exact pyMaybe_finiteOk v1
  · rw [hv2]
    exact pyMaybe_finiteOk v2
  · rw [hv3]
    exact pyMaybe_finiteOk v3
  · rw [hv4]
    exact pyMaybe_finiteOk v4
  · rw [hvp]
    exact pyMaybe_finiteOk vp
  · rw [hmt, List.all_eq_true]
    intro e he
    obtain ⟨x, -, rfl⟩ := List.mem_map.1 he
    simp [pyMaybe_finiteOk]

/-- C6: reading back any successfully built archive succeeds, and no NaN or
infinite float appears anywhere in the returned summary: every such value has
been translated to null. -/
theorem C6_theorem (ps : List PropertyRecord) (a : Archive)
    (h : buildArchive ps = .ok a) :
    ∃ s, readSummary a = .ok s ∧ summaryOk s = true := by
  obtain ⟨-, -, -, -, -, -, -, -, hq, hpps, -⟩ := buildArchive_ok_fields ps a h
  obtain ⟨q0, q1, q2, q3, q4, hq5⟩ := quartiles_shape ps
  obtain ⟨x, hx1⟩ := pps_shape ps
  have hqa : a.price_quartiles = [q0, q1, q2, q3, q4] := by rw [hq, hq5]
  have hpa : a.price_per_sqft_mean = [x] := by rw [hpps, hx1]
  have hok : ∃ s, readSummary a = .ok s := by
    simp only [readSummary, hpa, hqa, List.map_cons]
    exact ⟨_, rfl⟩
  obtain ⟨s, hs⟩ := hok
  exact ⟨s, hs, readSummary_ok_summaryOk a s hs⟩

/-- Witness for `C6_theorem` at the three-record input `W3`. -/
theorem C6_witness :
    buildArchive W3 = .ok W3Archive ∧
    ∃ s, readSummary W3Archive = .ok s ∧ summaryOk s = true :=
  ⟨by decide, C6_theorem W3 W3Archive (by decide)⟩

/-- A read never produces the file-not-found condition once the file exists:
its only error is IndexError. -/
theorem readSummary_errors (a : Archive) :
    readSummary a = .error .indexError ∨ ∃ s, readSummary a = .ok s := by
  unfold readSummary
  cases hp : a.price_per_sqft_mean with
  | nil => exact Or.inl rfl
  | cons pps0 prest =>
    rcases a.price_quartiles.map pyMaybe with - | ⟨q0, - | ⟨q1, - | ⟨q2, - | ⟨q3, - | ⟨q4, m⟩⟩⟩⟩⟩
    · exact Or.inl rfl
    · exact Or.inl rfl
    · exact Or.inl rfl
    · exact Or.inl rfl
    · exact Or.inl rfl
    · exact Or.inr ⟨_, rfl⟩

theorem readSummary_ne_fnf (a : Archive) :
    readSummary a ≠ .error .fileNotFoundError := by
  intro h
  rcases readSummary_errors a with he | ⟨s, hs⟩
  · rw [h] at he
    cases he
  · rw [h] at hs
    cases hs

/-- C7: reading a nonexistent path fails with the distinct file-not-found
condition, and an existing path never produces that condition. -/
theorem C7_theorem (fs : String → Option Archive) (path : String) :
    (fs path = Option.none → readArchive fs path = .error .fileNotFoundError) ∧
    (∀ a, fs path = some a → readArchive fs path ≠ .error .fileNotFoundError) := by
  constructor
  · intro h
    simp [readArchive, h]
  · intro a h
    simp only [readArchive, h]
    exact readSummary_ne_fnf a

/-- Witness for `C7_theorem`: an empty filesystem raises file-not-found, a
filesystem holding `W3Archive` does not. -/
theorem C7_witness :
    readArchive (fun _ => Option.none) "missing.h5" = .error .fileNotFoundError ∧
    readArchive (fun _ => some W3Archive) "insights.h5" ≠ .error .fileNotFoundError :=
  ⟨(C7_theorem (fun _ => Option.none) "missing.h5").1 rfl,
   (C7_theorem (fun _ => some W3Archive) "insights.h5").2 W3Archive rfl⟩

theorem computeCityStats_lengths (ps : List PropertyRecord) :
    (computeCityStats ps).cities.length = (ps.map (fun p => safeStr p.city)).dedup.length ∧
    (computeCityStats ps).counts.length = (ps.map (fun p => safeStr p.city)).dedup.length ∧
    (computeCityStats ps).avg_price.length = (ps.map (fun p => safeStr p.city)).dedup.length ∧
    (computeCityStats ps).avg_sqft.length = (ps.map (fun p => safeStr p.city)).dedup.length := by
  have hl := length_groupFold (fun p => safeStr p.city) cityStep cityInit ps
  refine ⟨?_, ?_, ?_, ?_⟩ <;>
    simpa [computeCityStats, cityTotals, List.length_map] using hl

theorem computeHomeTypeMix_lengths (ps : List PropertyRecord) :
    (computeHomeTypeMix ps).types.length = (ps.map (fun p => safeStr p.homeType)).dedup.length ∧
    (computeHomeTypeMix ps).counts.length = (ps.map (fun p => safeStr p.homeType)).dedup.length ∧
    (computeHomeTypeMix ps).avg_price.length =
      (ps.map (fun p => safeStr p.homeType)).dedup.length := by
  have hl := length_groupFold (fun p => safeStr p.homeType) homeStep homeInit ps
  refine ⟨?_, ?_, ?_⟩ <;>
    simpa [computeHomeTypeMix, homeTotals, List.length_map] using hl

theorem bands_lengths (ps : List PropertyRecord) (out : BandsOut)
    (h : computeBedroomBands ps = .ok out) :
    out.bands.length = out.counts.length := by
  unfold computeBedroomBands at h
  cases hbc : bandCountsFrom [] ps with
  | error e =>
    rw [hbc] at h
    cases h
  | ok bm =>
    rw [hbc] at h
    injection h with h
    subst h
    simp [List.length_map]

theorem quartiles_length (ps : List PropertyRecord) :
    (computePriceQuartiles ps).length = 5 := by
  obtain ⟨q0, q1, q2, q3, q4, hq⟩ := quartiles_shape ps
  rw [hq]
  rfl

theorem pps_length (ps : List PropertyRecord) :
    (computePricePerSqftMean ps).length = 1 := by
  obtain ⟨x, hx⟩ := pps_shape ps
  rw [hx]
  rfl

/-- C9: in every successfully built archive the aggregation arrays are
parallel — the four city arrays each have one entry per distinct coerced
city, the three home-type arrays one entry per distinct coerced home type,
the band and band-count arrays are equally long, `price_quartiles` has
exactly 5 entries, and `price_per_sqft_mean` exactly 1. -/
theorem C9_theorem (ps : List PropertyRecord) (a : Archive)
    (h : buildArchive ps = .ok a) :
    a.city_names.length = (ps.map (fun p => safeStr p.city)).dedup.length ∧
    a.city_counts.length = (ps.map (fun p => safeStr p.city)).dedup.length ∧
    a.city_avg_price.length = (ps.map (fun p => safeStr p.city)).dedup.length ∧
    a.city_avg_sqft.length = (ps.map (fun p => safeStr p.city)).dedup.length ∧
    a.home_types.length = (ps.map (fun p => safeStr p.homeType)).dedup.length ∧
    a.home_type_counts.length = (ps.map (fun p => safeStr p.homeType)).dedup.length ∧
    a.home_type_avg_price.length = (ps.map (fun p => safeStr p.homeType)).dedup.length ∧
    a.bedroom_bands.length = a.bedroom_counts.length ∧
    a.price_quartiles.length = 5 ∧
    a.price_per_sqft_mean.length = 1 := by
  obtain ⟨hc1, hc2, hc3, hc4, hh1, hh2, hh3, hbb, hq, hpps, -⟩ :=
    buildArchive_ok_fields ps a h
  obtain ⟨g1, g2, g3, g4⟩ := computeCityStats_lengths ps
  obtain ⟨m1, m2, m3⟩ := computeHomeTypeMix_lengths ps
  refine ⟨?_, ?_, ?_, ?_, ?_, ?_, ?_, ?_, ?_, ?_⟩
  · rw [hc1, g1]
  · rw [hc2, g2]
  · rw [hc3, g3]
  · rw [hc4, g4]
  · rw [hh1, m1]
  · rw [hh2, m2]
  · rw [hh3, m3]
  · exact bands_lengths ps ⟨a.bedroom_bands, a.bedroom_counts⟩ hbb
  · rw [hq]
    exact quartiles_length ps
  · rw [hpps]
    exact pps_length ps

/-- Witness for `C9_theorem` at the three-record input `W3` (two distinct
cities, two distinct home types, three bands). -/
theorem C9_witness :
    buildArchive W3 = .ok W3Archive ∧
    (W3Archive.city_names.length = (W3.map (fun p => safeStr p.city)).dedup.length ∧
     W3Archive.city_counts.length = (W3.map (fun p => safeStr p.city)).dedup.length ∧
     W3Archive.city_avg_price.length = (W3.map (fun p => safeStr p.city)).dedup.length ∧
     W3Archive.city_avg_sqft.length = (W3.map (fun p => safeStr p.city)).dedup.length ∧
     W3Archive.home_types.length = (W3.map (fun p => safeStr p.homeType)).dedup.length ∧
     W3Archive.home_type_counts.length = (W3.map (fun p => safeStr p.homeType)).dedup.length ∧
     W3Archive.home_type_avg_price.length =
       (W3.map (fun p => safeStr p.homeType)).dedup.length ∧
     W3Archive.bedroom_bands.length = W3Archive.bedroom_counts.length ∧
     W3Archive.price_quartiles.length = 5 ∧
     W3Archive.price_per_sqft_mean.length = 1) :=
  ⟨by decide, C9_theorem W3 W3Archive (by decide)⟩

/-- C10: the read path coerces every global_metrics attribute — including the
integer total_properties — through float conversion before the null
translation, so marketTotals reports total_properties as a float. -/
theorem C10_theorem (ps : List PropertyRecord) (a : Archive) (s : InsightsSummary)
    (h1 : buildArchive ps = .ok a) (h2 : readSummary a = .ok s) :
    dictGet "total_properties" s.marketTotals =
      some (.jfloat (.fin (ps.length : ℚ))) := by
  obtain ⟨-, -, -, -, -, -, -, -, -, -, hgm⟩ := buildArchive_ok_fields ps a h1
  obtain ⟨-, -, -, -, -, -, -, -, hmt⟩ := readSummary_ok_parts a s h2
  rw [hmt, hgm]
  simp [computeGlobalMetrics, dictGet, pyMaybe, attrFloat, PF.isNan, PF.isInf]

/-- Witness for `C10_theorem`: the three-record archive reports
`total_properties` as the float 3.0. -/
theorem C10_witness :
    buildArchive W3 = .ok W3Archive ∧
    readSummary W3Archive = .ok W3Summary ∧
    dictGet "total_properties" W3Summary.marketTotals =
      some (.jfloat (.fin (W3.length : ℚ))) :=
  ⟨by decide, by decide, C10_theorem W3 W3Archive W3Summary (by decide) (by decide)⟩
